import Mathlib

/-!
A shallow embedding of the btc-multisig wallet core (src/wallet.ts,
src/transaction.ts, utils) in Lean 4, together with theorems checking the
natural-language specification against it.

JavaScript objects used as string-keyed maps are modelled as association
lists with `putAssoc` insertion (replace-or-append, matching JS property
assignment).  JS numbers appearing in monetary arithmetic (`amount`,
`feeRate`, utxo satoshis) are modelled as rationals; `m`, `n` and
`requiredSignatures` pass a `Number.isInteger` check in the source and are
modelled as `Int`.  The LevelDB store is modelled as a typed record with
one association list per key namespace (`wallet:`, `tx:`, `_id:`).
-/

namespace BtcMultisig

/-- Replace-or-append insertion into an association list, matching JS
`obj[k] = v` on objects used as maps. -/
def putAssoc {α : Type} (l : List (String × α)) (k : String) (v : α) :
    List (String × α) :=
  match l with
  | [] => [(k, v)]
  | (k', v') :: rest =>
      if k' = k then (k, v) :: rest else (k', v') :: putAssoc rest k v

/-- Transaction lifecycle states from `interface.ts` (`TransactionStatus`). -/
inductive TransactionStatus where
  | pending
  | allsigned
  | broadcasted
  | finished
  | cancelled
deriving DecidableEq, Repr

/-- Script types recognised by `SecuxBTC.getScriptType`. -/
inductive ScriptType where
  | P2PKH
  | P2SH
  | P2WPKH
  | P2WSH
  | P2TR
deriving DecidableEq, Repr

/-- The string name each recognised script type is mapped to by the
`switch` in `estimateVirtualSize`. -/
def scriptTypeName : ScriptType → String
  | .P2PKH => "P2PKH"
  | .P2SH => "P2SH"
  | .P2WPKH => "P2WPKH"
  | .P2WSH => "P2WSH"
  | .P2TR => "P2TR"

/-- Error kinds of the core, abstracting the `Error` messages thrown by the
source (spec section 7 names the kinds). -/
inductive Err where
  | invalidParameter (field : String)
  | invalidThreshold
  | participantCountMismatch
  | duplicateParticipant
  | walletNotFound (walletId : String)
  | transactionNotFound (transactionId : String)
  | invalidStateTransition (current : TransactionStatus)
  | duplicateSigner (publicKey : String)
  | noFundsAvailable
  | insufficientFunds (available required : ℚ)
  | unsupportedScriptType
  | signatureRejected
  | upstreamUnavailable
deriving DecidableEq, Repr

/-- A wallet participant (`{publicKey, userId}`). -/
structure Participant where
  publicKey : String
  userId : String
deriving DecidableEq, Repr

/-- Wallet record persisted under `wallet:<walletId>`. -/
structure Wallet where
  walletId : String
  address : String
  redeemScript : String
  m : Int
  n : Int
  name : String
  creationTime : String
  participants : List Participant
deriving DecidableEq, Repr

/-- Transaction record persisted under `tx:<transactionId>`. -/
structure Transaction where
  transactionId : String
  walletId : String
  recipientAddress : String
  amount : ℚ
  status : TransactionStatus
  psbt : String
  inputCount : Nat
  requiredSignatures : Int
  signatures : List (String × List String)
  signaturesReceived : Nat
  signedTransaction : Option String := none
  txHash : Option String := none
  initiatedTime : String
  broadcastTime : Option String := none
  note : Option String := none
deriving DecidableEq, Repr

/-- An unspent output as returned by `getUTXOsBlockbook`. -/
structure Utxo where
  hash : String
  vout : Nat
  satoshis : ℚ
deriving DecidableEq, Repr

/-- The persistent store (LevelDB), split by key namespace: `wallet:` and
`tx:` records plus the `_id:` counter used by `generateId`. -/
structure Store where
  wallets : List (String × Wallet)
  txs : List (String × Transaction)
  idCounter : Option Nat
deriving DecidableEq, Repr

def emptyStore : Store := ⟨[], [], none⟩

/-- Modelled from the spec: the Script Engine capability boundary (spec
section 6; the source delegates to the external `SecuxPsbt` / `SecuxBTC`
library, which is not part of this repository).  `Artifact` is the opaque
partially-signed-transaction value; `fromBuffer`/`toBuffer` are
deserialize/serialize on its hex form; `submitSignatureAt` applies one
signature to one input and fails on an invalid signature;
`finalizeExtractHex` collapses `finalizeAllInputs().extractTransaction()
.toHex()` and, per the spec invariant that `allsigned` implies a non-empty
`signedTransaction`, always yields a non-empty hex string;
`initializeMultiSig` yields the fresh artifact plus `(address,
redeemScript)`; `getScriptType` classifies an address (`none` for the
unsupported case); `hash` is the one-way hash + base-58 encoding used by
`customHash`. -/
structure ScriptEngine where
  Artifact : Type
  fromBuffer : String → Artifact
  toBuffer : Artifact → String
  submitSignatureAt : Artifact → Nat → String → String → Option Artifact
  finalizeExtractHex : Artifact → String
  finalize_nonempty : ∀ a, finalizeExtractHex a ≠ ""
  initializeMultiSig : Int → List String → Artifact × String × String
  addMultiSigInput : Artifact → Utxo → Artifact
  addOutput : Artifact → String → ℚ → Artifact
  getScriptType : String → Option ScriptType
  hash : String → String

/-- Modelled from the spec: the external environment (Blockchain Client
responses, the `getByteCount` fee table whose source file is not under
`src/`, and the ambient clock).  `utxos` is `getUTXOsBlockbook` per
address; `txDetails` is the result of `utils.getTransactionStatus`
(`none` when the RPC failed and the error was swallowed);
`broadcastResult` is `utils.broadcastTransaction` (`Except.error` when the
broadcast fails); `getByteCount` maps input/output script-type
compositions to a virtual size. -/
structure Env where
  utxos : String → List Utxo
  txDetails : String → Option Int
  broadcastResult : String → Except Unit String
  getByteCount : List (String × Nat) → List (String × Nat) → ℚ
  now : String

/-- JS truthiness of an optional numeric map entry (`if (outputs["P2WSH"])`). -/
def truthyNat : Option Nat → Bool
  | some v => v ≠ 0
  | none => false

/-- JS truthiness of an optional string field (`transaction.txHash`). -/
def truthyStr : Option String → Bool
  | some s => s ≠ ""
  | none => false

/-- `String(n).padStart(16, '0')` on a counter value. -/
def padLeft16 (n : Nat) : String :=
  let s := toString n
  String.mk (List.replicate (16 - s.length) '0') ++ s

/-- `generateId` (utils): read the `_id:` counter, increment and persist it,
return `prefix + padded counter`; initialise the counter to 1 on first
use. -/
def generateId (st : Store) : Store × String :=
  match st.idCounter with
  | some lastId =>
      let nid := lastId + 1
      ({ st with idCounter := some nid },
        "secux_btc_multisig" ++ padLeft16 nid)
  | none =>
      ({ st with idCounter := some 1 },
        "secux_btc_multisig" ++ "0000000000000001")

/-- Public wallet view returned by `createMultisigWallet`. -/
structure WalletView where
  walletId : String
  address : String
  redeemScript : String
  m : Int
  n : Int
  name : String
  creationTime : String
deriving DecidableEq, Repr

/-- `createMultisigWallet` (wallet.ts): validate the threshold, the
participant count and key distinctness, then generate a wallet id via the
persisted counter, derive `(address, redeemScript)` through the Script
Engine and persist the wallet record.  (`m`, `n` being `Int` carries the
`Number.isInteger` check of the source.) -/
def createMultisigWallet (eng : ScriptEngine) (now : String) (st : Store)
    (m n : Int) (name : Option String) (participants : List Participant) :
    Store × Except Err WalletView :=
  if m > n ∨ m ≤ 0 ∨ n ≤ 0 then
    (st, .error .invalidThreshold)
  else if (participants.length : Int) ≠ n then
    (st, .error .participantCountMismatch)
  else
    let publicKeys := participants.map Participant.publicKey
    if (publicKeys.dedup.length : Int) ≠ n then
      (st, .error .duplicateParticipant)
    else
      let gen := generateId st
      let st1 := gen.1
      let walletId := eng.hash gen.2
      let init := eng.initializeMultiSig m publicKeys
      let walletData : Wallet :=
        { walletId := walletId
          address := init.2.1
          redeemScript := init.2.2
          m := m
          n := n
          name := name.getD ""
          creationTime := now
          participants := participants }
      ({ st1 with wallets := putAssoc st1.wallets walletId walletData },
        .ok { walletId := walletId, address := init.2.1,
              redeemScript := init.2.2, m := m, n := n,
              name := name.getD "", creationTime := now })

/-- The loop in `submitSignature` applying the `i`-th submitted signature
to the `i`-th input via `psbt.submitSignature`; any rejected signature
fails the whole batch. -/
def applyAll (eng : ScriptEngine) (pk : String) :
    eng.Artifact → Nat → List String → Option eng.Artifact
  | a, _, [] => some a
  | a, i, s :: rest =>
      match eng.submitSignatureAt a i pk s with
      | none => none
      | some a' => applyAll eng pk a' (i + 1) rest

/-- Result shape returned by `submitSignature` (its `requiredSignatures`
field is the remainder `requiredSignatures - signaturesReceived`). -/
structure SubmitResult where
  transactionId : String
  status : TransactionStatus
  signaturesReceived : Nat
  requiredSignatures : Int
deriving DecidableEq, Repr

/-- The in-place update `submitSignature` performs on the loaded transaction
record after all submitted signatures applied cleanly: record the signer's
entry, recompute `signaturesReceived` as the key count, re-serialize the
psbt, and on reaching the threshold transition to `allsigned` and extract
the final raw transaction. -/
def submittedTx (eng : ScriptEngine) (transaction : Transaction)
    (publicKey : String) (signatures : List String)
    (psbt' : eng.Artifact) : Transaction :=
  let newSigs := putAssoc transaction.signatures publicKey signatures
  let received := newSigs.length
  { transaction with
    signatures := newSigs
    signaturesReceived := received
    psbt := eng.toBuffer psbt'
    status :=
      if (received : Int) ≥ transaction.requiredSignatures then .allsigned
      else transaction.status
    signedTransaction :=
      if (received : Int) ≥ transaction.requiredSignatures then
        some (eng.finalizeExtractHex psbt')
      else transaction.signedTransaction }

/-- `submitSignature` (wallet.ts): validate the key, load the transaction,
require `pending`, load the wallet, decode the psbt, reject a duplicate
signer, apply every submitted signature, record the signer's entry,
recompute `signaturesReceived` as the key count, re-serialize the psbt,
and on reaching the threshold transition to `allsigned` and extract the
final raw transaction; persist and return the summary. -/
def submitSignature (eng : ScriptEngine) (st : Store)
    (transactionId publicKey : String) (signatures : List String) :
    Store × Except Err SubmitResult :=
  if publicKey = "" then
    (st, .error (.invalidParameter "publicKey"))
  else
    match st.txs.lookup transactionId with
    | none => (st, .error (.transactionNotFound transactionId))
    | some transaction =>
      if transaction.status ≠ TransactionStatus.pending then
        (st, .error (.invalidStateTransition transaction.status))
      else
        match st.wallets.lookup transaction.walletId with
        | none => (st, .error (.walletNotFound transaction.walletId))
        | some _walletData =>
          let psbt := eng.fromBuffer transaction.psbt
          if (transaction.signatures.lookup publicKey).isSome then
            (st, .error (.duplicateSigner publicKey))
          else
            match applyAll eng publicKey psbt 0 signatures with
            | none => (st, .error .signatureRejected)
            | some psbt' =>
              let transaction' := submittedTx eng transaction publicKey signatures psbt'
              ({ st with txs := putAssoc st.txs transactionId transaction' },
                .ok { transactionId := transaction.transactionId
                      status := transaction'.status
                      signaturesReceived := transaction'.signaturesReceived
                      requiredSignatures :=
                        transaction.requiredSignatures -
                          (transaction'.signaturesReceived : Int) })

/-- The output-composition object built inside `estimateVirtualSize`
(utils): `{[scriptType]: 1}`, then `outputs["P2WSH"]` is forced to 2 when
already (truthily) present, to 1 otherwise. -/
def outputsComposition (scriptType : String) : List (String × Nat) :=
  let outputs : List (String × Nat) := [(scriptType, 1)]
  if truthyNat (outputs.lookup "P2WSH") then putAssoc outputs "P2WSH" 2
  else putAssoc outputs "P2WSH" 1

/-- The input-composition key `MULTISIG-P2WSH:m-n` used by
`estimateVirtualSize`. -/
def multisigKey (m n : Int) : String :=
  "MULTISIG-P2WSH:" ++ toString m ++ "-" ++ toString n

/-- `estimateVirtualSize` (utils): load the wallet, classify the recipient
address (failing on an unsupported one), count the wallet's utxos, build
the output composition and delegate to `getByteCount`. -/
def estimateVirtualSize (eng : ScriptEngine) (env : Env) (st : Store)
    (walletId recipientAddress : String) : Except Err ℚ :=
  match st.wallets.lookup walletId with
  | none => .error (.walletNotFound walletId)
  | some walletData =>
    match eng.getScriptType recipientAddress with
    | none => .error .unsupportedScriptType
    | some t =>
      let scriptType := scriptTypeName t
      let inputCount := (env.utxos walletData.address).length
      let outputs := outputsComposition scriptType
      .ok (env.getByteCount [(multisigKey walletData.m walletData.n, inputCount)]
            outputs)

/-- `initiateTransaction` (transaction.ts): validate the parameters, load
the wallet, fetch the utxos (failing when empty), build the psbt with every
utxo as input and sum `totalInputAmount`, compute
`estimatedFee = ceil(vSize * feeRate)`, reject insufficient funds, add the
recipient output and a change output when positive, hash the serialized
psbt into the transaction id and persist the `pending` record. -/
def initiateTransaction (eng : ScriptEngine) (env : Env) (st : Store)
    (walletId : String) (recipientAddress : String) (amount : ℚ)
    (feeRateOpt : Option ℚ) (note : Option String) :
    Store × Except Err Transaction :=
  let feeRate := feeRateOpt.getD 1
  if recipientAddress = "" then
    (st, .error (.invalidParameter "recipientAddress"))
  else if amount ≤ 0 then
    (st, .error (.invalidParameter "amount"))
  else if feeRate ≤ 0 then
    (st, .error (.invalidParameter "feeRate"))
  else
    match st.wallets.lookup walletId with
    | none => (st, .error (.walletNotFound walletId))
    | some walletData =>
      let utxos := env.utxos walletData.address
      if utxos = [] then
        (st, .error .noFundsAvailable)
      else
        let init := eng.initializeMultiSig walletData.m
          (walletData.participants.map Participant.publicKey)
        let psbt0 := utxos.foldl (fun a u => eng.addMultiSigInput a u) init.1
        let totalInputAmount : ℚ := (utxos.map Utxo.satoshis).sum
        let inputCount := utxos.length
        match estimateVirtualSize eng env st walletId recipientAddress with
        | .error e => (st, .error e)
        | .ok vSize =>
          let estimatedFee : Int := ⌈vSize * feeRate⌉
          if totalInputAmount < amount + (estimatedFee : ℚ) then
            (st, .error (.insufficientFunds totalInputAmount
              (amount + (estimatedFee : ℚ))))
          else
            let psbt1 := eng.addOutput psbt0 recipientAddress amount
            let changeAmount := totalInputAmount - amount - (estimatedFee : ℚ)
            let psbt2 :=
              if changeAmount > 0 then
                eng.addOutput psbt1 walletData.address changeAmount
              else psbt1
            let psbtHex := eng.toBuffer psbt2
            let transactionId := eng.hash psbtHex
            let transaction : Transaction :=
              { transactionId := transactionId
                walletId := walletId
                recipientAddress := recipientAddress
                amount := amount
                status := .pending
                psbt := psbtHex
                inputCount := inputCount
                requiredSignatures := walletData.m
                signatures := []
                signaturesReceived := 0
                initiatedTime := env.now
                note := note }
            ({ st with txs := putAssoc st.txs transactionId transaction },
              .ok transaction)

/-- Result shape returned by `broadcastTransaction`. -/
structure BroadcastResult where
  transactionId : String
  status : TransactionStatus
  txHash : String
  broadcastTime : String
deriving DecidableEq, Repr

/-- `broadcastTransaction` (transaction.ts): load the transaction, require
`allsigned`, submit `signedTransaction` to the blockchain client (a
failure propagates before any write), record `txHash`/`broadcastTime`, set
`broadcasted` and persist. -/
def broadcastTransaction (env : Env) (st : Store) (transactionId : String) :
    Store × Except Err BroadcastResult :=
  match st.txs.lookup transactionId with
  | none => (st, .error (.transactionNotFound transactionId))
  | some transaction =>
    if transaction.status ≠ TransactionStatus.allsigned then
      (st, .error (.invalidStateTransition transaction.status))
    else
      match env.broadcastResult (transaction.signedTransaction.getD "") with
      | .error _ => (st, .error .upstreamUnavailable)
      | .ok txHash =>
        let transaction' : Transaction :=
          { transaction with
            txHash := some txHash
            status := .broadcasted
            broadcastTime := some env.now }
        ({ st with txs := putAssoc st.txs transactionId transaction' },
          .ok { transactionId := transaction.transactionId
                status := .broadcasted
                txHash := txHash
                broadcastTime := env.now })

/-- `cancelTransaction` (transaction.ts): load the transaction, require
`pending`, set `cancelled` and persist. -/
def cancelTransaction (st : Store) (transactionId : String) :
    Store × Except Err (String × TransactionStatus) :=
  match st.txs.lookup transactionId with
  | none => (st, .error (.transactionNotFound transactionId))
  | some transaction =>
    if transaction.status ≠ TransactionStatus.pending then
      (st, .error (.invalidStateTransition transaction.status))
    else
      let transaction' : Transaction := { transaction with status := .cancelled }
      ({ st with txs := putAssoc st.txs transactionId transaction' },
        .ok (transaction.transactionId, TransactionStatus.cancelled))

/-- Status projection returned by `getTransactionStatus`. -/
structure StatusView where
  transactionId : String
  walletId : String
  status : TransactionStatus
  txHash : Option String
  requiredSignatures : Int
  signaturesReceived : Nat
deriving DecidableEq, Repr

def statusView (t : Transaction) : StatusView :=
  { transactionId := t.transactionId
    walletId := t.walletId
    status := t.status
    txHash := t.txHash
    requiredSignatures := t.requiredSignatures
    signaturesReceived := t.signaturesReceived }

/-- `getTransactionStatus` (transaction.ts): load the transaction; when it
is `broadcasted` with a (truthy) `txHash`, query the blockchain client —
on a successful query with positive confirmations advance to `finished`
and persist, otherwise (including a swallowed query failure) change
nothing; always return the status projection. -/
def getTransactionStatus (env : Env) (st : Store) (transactionId : String) :
    Store × Except Err StatusView :=
  match st.txs.lookup transactionId with
  | none => (st, .error (.transactionNotFound transactionId))
  | some transaction =>
    if transaction.status = TransactionStatus.broadcasted ∧
        truthyStr transaction.txHash then
      match env.txDetails (transaction.txHash.getD "") with
      | some confirmations =>
        if confirmations > 0 then
          let transaction' : Transaction :=
            { transaction with status := .finished }
          ({ st with txs := putAssoc st.txs transactionId transaction' },
            .ok (statusView transaction'))
        else (st, .ok (statusView transaction))
      | none => (st, .ok (statusView transaction))
    else (st, .ok (statusView transaction))

/-! ### Association-list lemmas -/

theorem lookup_cons_self {α : Type} (k : String) (v : α)
    (l : List (String × α)) : ((k, v) :: l).lookup k = some v := by
  simp [List.lookup]

theorem lookup_cons_ne {α : Type} {k k' : String} (v : α)
    (l : List (String × α)) (h : k' ≠ k) :
    ((k, v) :: l).lookup k' = l.lookup k' := by
  simp [List.lookup, beq_false_of_ne h]

theorem lookup_putAssoc_self {α : Type} (l : List (String × α)) (k : String)
    (v : α) : (putAssoc l k v).lookup k = some v := by
  induction l with
  | nil => simp [putAssoc, List.lookup]
  | cons hd tl ih =>
    obtain ⟨k', v'⟩ := hd
    by_cases h : k' = k
    · subst h
      simp [putAssoc, lookup_cons_self]
    · rw [putAssoc, if_neg h, lookup_cons_ne _ _ (Ne.symm h), ih]

theorem lookup_putAssoc_ne {α : Type} (l : List (String × α)) (k k' : String)
    (v : α) (h : k' ≠ k) : (putAssoc l k v).lookup k' = l.lookup k' := by
  induction l with
  | nil =>
    show ((k, v) :: []).lookup k' = List.lookup k' []
    rw [lookup_cons_ne _ _ h]
  | cons hd tl ih =>
    obtain ⟨k₀, v₀⟩ := hd
    by_cases h0 : k₀ = k
    · subst h0
      rw [putAssoc, if_pos rfl, lookup_cons_ne _ _ h, lookup_cons_ne _ _ h]
    · rw [putAssoc, if_neg h0]
      by_cases h1 : k' = k₀
      · subst h1
        rw [lookup_cons_self, lookup_cons_self]
      · rw [lookup_cons_ne _ _ h1, lookup_cons_ne _ _ h1, ih]

theorem putAssoc_of_lookup_none {α : Type} (l : List (String × α))
    (k : String) (v : α) (h : l.lookup k = none) :
    putAssoc l k v = l ++ [(k, v)] := by
  induction l with
  | nil => simp [putAssoc]
  | cons hd tl ih =>
    obtain ⟨k₀, v₀⟩ := hd
    by_cases h0 : k = k₀
    · subst h0
      rw [lookup_cons_self] at h
      exact absurd h (by simp)
    · rw [lookup_cons_ne _ _ h0] at h
      rw [putAssoc, if_neg (Ne.symm h0), ih h]
      simp

theorem lookup_none_not_mem_keys {α : Type} (l : List (String × α))
    (k : String) (h : l.lookup k = none) : k ∉ l.map Prod.fst := by
  induction l with
  | nil => simp
  | cons hd tl ih =>
    obtain ⟨k₀, v₀⟩ := hd
    by_cases h0 : k = k₀
    · subst h0
      rw [lookup_cons_self] at h
      exact absurd h (by simp)
    · rw [lookup_cons_ne _ _ h0] at h
      simp [h0, ih h]

/-! ### Invariants and reachability -/

/-- Per-transaction invariant: `signaturesReceived` equals the number of
signer entries, signer keys are distinct, the count never exceeds the
threshold, and a `pending` record is strictly below the threshold. -/
def TxInv (t : Transaction) : Prop :=
  t.signaturesReceived = t.signatures.length ∧
  (t.signatures.map Prod.fst).Nodup ∧
  (t.signaturesReceived : Int) ≤ t.requiredSignatures ∧
  (t.status = TransactionStatus.pending →
    (t.signaturesReceived : Int) < t.requiredSignatures)

/-- Per-wallet invariant: the threshold is positive. -/
def WalletInv (w : Wallet) : Prop := 0 < w.m

/-- Store-wide invariant over all persisted records. -/
def StoreInv (st : Store) : Prop :=
  (∀ k w, st.wallets.lookup k = some w → WalletInv w) ∧
  (∀ k t, st.txs.lookup k = some t → TxInv t)

/-- Stores reachable from the empty store through the public operations
(each step with an arbitrary environment and arguments). -/
inductive Reach (eng : ScriptEngine) : Store → Prop where
  | init : Reach eng emptyStore
  | createWallet {st} (now : String) (m n : Int) (name : Option String)
      (ps : List Participant) : Reach eng st →
      Reach eng (createMultisigWallet eng now st m n name ps).1
  | initiate {st} (env : Env) (wid addr : String) (amt : ℚ)
      (fr : Option ℚ) (note : Option String) : Reach eng st →
      Reach eng (initiateTransaction eng env st wid addr amt fr note).1
  | submit {st} (id pk : String) (sigs : List String) : Reach eng st →
      Reach eng (submitSignature eng st id pk sigs).1
  | broadcast {st} (env : Env) (id : String) : Reach eng st →
      Reach eng (broadcastTransaction env st id).1
  | cancel {st} (id : String) : Reach eng st →
      Reach eng (cancelTransaction st id).1
  | status {st} (env : Env) (id : String) : Reach eng st →
      Reach eng (getTransactionStatus env st id).1

/-! ### Invariant preservation -/

theorem generateId_wallets (st : Store) : (generateId st).1.wallets = st.wallets := by
  cases h : st.idCounter <;> simp [generateId, h]

theorem generateId_txs (st : Store) : (generateId st).1.txs = st.txs := by
  cases h : st.idCounter <;> simp [generateId, h]

theorem storeInv_putTx {st : Store} {k : String} {t : Transaction}
    (hst : StoreInv st) (ht : TxInv t) :
    StoreInv { st with txs := putAssoc st.txs k t } := by
  refine ⟨hst.1, fun k' t' h' => ?_⟩
  by_cases hk : k' = k
  · subst hk
    rw [lookup_putAssoc_self] at h'
    cases h'
    exact ht
  · rw [lookup_putAssoc_ne _ _ _ _ hk] at h'
    exact hst.2 k' t' h'

theorem storeInv_putWallet {st : Store} {k : String} {w : Wallet}
    (hst : StoreInv st) (hw : WalletInv w) :
    StoreInv { st with wallets := putAssoc st.wallets k w } := by
  refine ⟨fun k' w' h' => ?_, hst.2⟩
  by_cases hk : k' = k
  · subst hk
    rw [lookup_putAssoc_self] at h'
    cases h'
    exact hw
  · rw [lookup_putAssoc_ne _ _ _ _ hk] at h'
    exact hst.1 k' w' h'

theorem storeInv_createMultisigWallet (eng : ScriptEngine) (now : String)
    (st : Store) (m n : Int) (name : Option String)
    (ps : List Participant) (hst : StoreInv st) :
    StoreInv (createMultisigWallet eng now st m n name ps).1 := by
  unfold createMultisigWallet
  dsimp only
  split
  · exact hst
  split
  · exact hst
  split
  · exact hst
  · rename_i hth _ _
    have hm : 0 < m := by
      push_neg at hth
      exact hth.2.1
    have hg : StoreInv (generateId st).1 :=
      ⟨fun k w h => hst.1 k w (by rwa [generateId_wallets] at h),
       fun k t h => hst.2 k t (by rwa [generateId_txs] at h)⟩
    exact storeInv_putWallet hg hm

theorem storeInv_initiateTransaction (eng : ScriptEngine) (env : Env)
    (st : Store) (wid addr : String) (amt : ℚ) (fr : Option ℚ)
    (note : Option String) (hst : StoreInv st) :
    StoreInv (initiateTransaction eng env st wid addr amt fr note).1 := by
  unfold initiateTransaction
  dsimp only
  split
  · exact hst
  split
  · exact hst
  split
  · exact hst
  split
  · exact hst
  · rename_i w hw
    have hm : 0 < w.m := hst.1 wid w hw
    split
    · exact hst
    · try dsimp only
      split
      · exact hst
      · rename_i vSize hv
        split
        · exact hst
        · apply storeInv_putTx hst
          exact ⟨rfl, List.nodup_nil, by simpa using le_of_lt hm,
            fun _ => by simpa using hm⟩

/-! ### `submitSignature` characterizations -/

theorem submitSignature_eq_of_success (eng : ScriptEngine) (st : Store)
    (id pk : String) (sigs : List String) (tx : Transaction)
    (a' : eng.Artifact)
    (hpk : pk ≠ "") (htx : st.txs.lookup id = some tx)
    (hpend : tx.status = TransactionStatus.pending)
    (hw : (st.wallets.lookup tx.walletId).isSome)
    (hdup : tx.signatures.lookup pk = none)
    (happly : applyAll eng pk (eng.fromBuffer tx.psbt) 0 sigs = some a') :
    submitSignature eng st id pk sigs =
      ({ st with txs := putAssoc st.txs id (submittedTx eng tx pk sigs a') },
        .ok { transactionId := tx.transactionId
              status := (submittedTx eng tx pk sigs a').status
              signaturesReceived :=
                (submittedTx eng tx pk sigs a').signaturesReceived
              requiredSignatures := tx.requiredSignatures -
                ((submittedTx eng tx pk sigs a').signaturesReceived : Int) }) := by
  obtain ⟨w, hw'⟩ := Option.isSome_iff_exists.mp hw
  unfold submitSignature
  rw [if_neg hpk, htx]
  dsimp only
  rw [if_neg (by simp [hpend]), hw']
  dsimp only
  rw [if_neg (by simp [hdup]), happly]

theorem submitSignature_not_pending (eng : ScriptEngine) (st : Store)
    (id pk : String) (sigs : List String) (tx : Transaction)
    (hpk : pk ≠ "") (htx : st.txs.lookup id = some tx)
    (h : tx.status ≠ TransactionStatus.pending) :
    submitSignature eng st id pk sigs =
      (st, .error (.invalidStateTransition tx.status)) := by
  unfold submitSignature
  rw [if_neg hpk, htx]
  dsimp only
  rw [if_pos h]

theorem submitSignature_rejected_of_not_pending (eng : ScriptEngine)
    (st : Store) (id pk : String) (sigs : List String) (tx : Transaction)
    (htx : st.txs.lookup id = some tx)
    (h : tx.status ≠ TransactionStatus.pending) :
    ∃ e, submitSignature eng st id pk sigs = (st, .error e) := by
  by_cases hpk : pk = ""
  · exact ⟨.invalidParameter "publicKey", by unfold submitSignature; rw [if_pos hpk]⟩
  · exact ⟨.invalidStateTransition tx.status,
      submitSignature_not_pending eng st id pk sigs tx hpk htx h⟩

theorem submitSignature_duplicate (eng : ScriptEngine) (st : Store)
    (id pk : String) (sigs : List String) (tx : Transaction)
    (hpk : pk ≠ "") (htx : st.txs.lookup id = some tx)
    (hpend : tx.status = TransactionStatus.pending)
    (hw : (st.wallets.lookup tx.walletId).isSome)
    (hdup : (tx.signatures.lookup pk).isSome) :
    submitSignature eng st id pk sigs = (st, .error (.duplicateSigner pk)) := by
  obtain ⟨w, hw'⟩ := Option.isSome_iff_exists.mp hw
  unfold submitSignature
  rw [if_neg hpk, htx]
  dsimp only
  rw [if_neg (by simp [hpend]), hw']
  dsimp only
  rw [if_pos hdup]

theorem txInv_submittedTx (eng : ScriptEngine) (tx : Transaction)
    (pk : String) (sigs : List String) (a' : eng.Artifact)
    (hinv : TxInv tx) (hpend : tx.status = TransactionStatus.pending)
    (hdup : tx.signatures.lookup pk = none) :
    TxInv (submittedTx eng tx pk sigs a') := by
  obtain ⟨hcount, hnodup, _hle, hlt⟩ := hinv
  have hput := putAssoc_of_lookup_none tx.signatures pk sigs hdup
  have hfresh := lookup_none_not_mem_keys tx.signatures pk hdup
  have hlen : (putAssoc tx.signatures pk sigs).length =
      tx.signatures.length + 1 := by
    rw [hput]; simp
  have hnew_le : ((putAssoc tx.signatures pk sigs).length : Int) ≤
      tx.requiredSignatures := by
    rw [hlen]
    have := hlt hpend
    rw [hcount] at this
    omega
  refine ⟨rfl, ?_, ?_, ?_⟩
  · show ((putAssoc tx.signatures pk sigs).map Prod.fst).Nodup
    rw [hput, List.map_append]
    exact List.Nodup.append hnodup (List.nodup_singleton _)
      (by simpa [List.disjoint_singleton] using hfresh)
  · simpa [submittedTx] using hnew_le
  · intro hstat
    simp only [submittedTx] at hstat ⊢
    by_cases hr : ((putAssoc tx.signatures pk sigs).length : Int) ≥
        tx.requiredSignatures
    · rw [if_pos hr] at hstat
      exact absurd hstat (by simp)
    · omega

theorem storeInv_submitSignature (eng : ScriptEngine) (st : Store)
    (id pk : String) (sigs : List String) (hst : StoreInv st) :
    StoreInv (submitSignature eng st id pk sigs).1 := by
  unfold submitSignature
  split
  · exact hst
  split
  · exact hst
  · rename_i tx htx
    split
    · exact hst
    · rename_i hpend
      split
      · exact hst
      · dsimp only
        split
        · exact hst
        · rename_i hdup
          split
          · exact hst
          · rename_i a' happly
            apply storeInv_putTx hst
            refine txInv_submittedTx eng tx pk sigs a' (hst.2 _ _ htx) ?_ ?_
            · by_contra hne
              exact hpend hne
            · exact Option.not_isSome_iff_eq_none.mp hdup

theorem storeInv_broadcastTransaction (env : Env) (st : Store) (id : String)
    (hst : StoreInv st) : StoreInv (broadcastTransaction env st id).1 := by
  unfold broadcastTransaction
  split
  · exact hst
  · rename_i tx htx
    split
    · exact hst
    · split
      · exact hst
      · apply storeInv_putTx hst
        obtain ⟨hcount, hnodup, hle, _⟩ := hst.2 _ _ htx
        exact ⟨hcount, hnodup, hle, fun h => by simp at h⟩

theorem storeInv_cancelTransaction (st : Store) (id : String)
    (hst : StoreInv st) : StoreInv (cancelTransaction st id).1 := by
  unfold cancelTransaction
  split
  · exact hst
  · rename_i tx htx
    split
    · exact hst
    · apply storeInv_putTx hst
      obtain ⟨hcount, hnodup, hle, _⟩ := hst.2 _ _ htx
      exact ⟨hcount, hnodup, hle, fun h => by simp at h⟩

theorem storeInv_getTransactionStatus (env : Env) (st : Store) (id : String)
    (hst : StoreInv st) : StoreInv (getTransactionStatus env st id).1 := by
  unfold getTransactionStatus
  split
  · exact hst
  · rename_i tx htx
    split
    · split
      · split
        · apply storeInv_putTx hst
          obtain ⟨hcount, hnodup, hle, _⟩ := hst.2 _ _ htx
          exact ⟨hcount, hnodup, hle, fun h => by simp at h⟩
        · exact hst
      · exact hst
    · exact hst

/-- Every reachable store satisfies the store-wide invariant: in
particular, in every persisted transaction `signaturesReceived` equals the
number of (distinct) signer entries and never exceeds
`requiredSignatures`. -/
theorem reach_storeInv (eng : ScriptEngine) (st : Store)
    (h : Reach eng st) : StoreInv st := by
  induction h with
  | init => exact ⟨fun k w h => by simp [emptyStore, List.lookup] at h,
      fun k t h => by simp [emptyStore, List.lookup] at h⟩
  | createWallet now m n name ps _ ih =>
      exact storeInv_createMultisigWallet _ _ _ _ _ _ _ ih
  | initiate env wid addr amt fr note _ ih =>
      exact storeInv_initiateTransaction _ _ _ _ _ _ _ _ ih
  | submit id pk sigs _ ih => exact storeInv_submitSignature _ _ _ _ _ ih
  | broadcast env id _ ih => exact storeInv_broadcastTransaction _ _ _ ih
  | cancel id _ ih => exact storeInv_cancelTransaction _ _ ih
  | status env id _ ih => exact storeInv_getTransactionStatus _ _ _ ih

/-! ### Concrete instances used to exercise the theorems -/

/-- A concrete script engine (opaque artifact collapsed to `Unit`) used to
evaluate the operations on closed inputs. -/
def wEng : ScriptEngine where
  Artifact := Unit
  fromBuffer _ := ()
  toBuffer _ := "70736274"
  submitSignatureAt _ _ _ _ := some ()
  finalizeExtractHex _ := "0200"
  finalize_nonempty _ := by
    show ("0200" : String) ≠ ""
    decide
  initializeMultiSig _ _ := ((), "bc1qaddr", "rscript")
  addMultiSigInput a _ := a
  addOutput a _ _ := a
  getScriptType a :=
    if a = "p2pkh" then some .P2PKH
    else if a = "bad" then none
    else some .P2WSH
  hash s := s

/-- A concrete environment: one 100000-satoshi utxo everywhere, a failing
confirmation query, a successful broadcast, a constant fee table. -/
def wEnv : Env where
  utxos _ := [⟨"aa", 0, 100000⟩]
  txDetails _ := none
  broadcastResult _ := .ok "txhash1"
  getByteCount _ _ := 100
  now := "t0"

def wWallet : Wallet :=
  { walletId := "w0", address := "bc1qaddr", redeemScript := "rscript"
    m := 2, n := 3, name := "", creationTime := "t0"
    participants := [⟨"k1", ""⟩, ⟨"k2", ""⟩, ⟨"k3", ""⟩] }

/-- A pending 2-of-3 transaction with one collected signature. -/
def wTx : Transaction :=
  { transactionId := "t0", walletId := "w0", recipientAddress := "dest"
    amount := 1, status := .pending, psbt := "p", inputCount := 1
    requiredSignatures := 2, signatures := [("k1", [])]
    signaturesReceived := 1, initiatedTime := "t0" }

def wStore : Store :=
  { wallets := [("w0", wWallet)], txs := [("t0", wTx)], idCounter := some 1 }

/-- The same transaction already broadcast. -/
def wTxB : Transaction :=
  { wTx with
    status := .broadcasted
    txHash := some "h1"
    signaturesReceived := 2
    signatures := [("k1", []), ("k2", [])]
    signedTransaction := some "0200" }

def wStoreB : Store :=
  { wallets := [("w0", wWallet)], txs := [("t0", wTxB)], idCounter := some 1 }

/-! ### Claims -/

/-- C3: for a pending transaction whose signatures map already contains
the submitted public key, `submitSignature` fails with the
duplicate-signer error and the store — hence the persisted transaction
record, its `signaturesReceived` and its `psbt` — is unchanged. -/
theorem submitSignature_duplicate_signer (eng : ScriptEngine) (st : Store)
    (id pk : String) (sigs s0 : List String) (tx : Transaction)
    (hpk : pk ≠ "") (htx : st.txs.lookup id = some tx)
    (hpend : tx.status = TransactionStatus.pending)
    (hw : (st.wallets.lookup tx.walletId).isSome)
    (hdup : tx.signatures.lookup pk = some s0) :
    submitSignature eng st id pk sigs = (st, .error (.duplicateSigner pk)) ∧
    (submitSignature eng st id pk sigs).1.txs.lookup id = some tx := by
  have h := submitSignature_duplicate eng st id pk sigs tx hpk htx hpend hw
    (by simp [hdup])
  exact ⟨h, by rw [h]; exact htx⟩

/-- C3 witness: submitting again from `k1`, which already signed the
concrete pending transaction, fails with the duplicate-signer error and
leaves the store untouched. -/
theorem submitSignature_duplicate_signer_witness :
    ("k1" : String) ≠ "" ∧
    wStore.txs.lookup "t0" = some wTx ∧
    wTx.status = TransactionStatus.pending ∧
    (wStore.wallets.lookup wTx.walletId).isSome ∧
    wTx.signatures.lookup "k1" = some [] ∧
    (submitSignature wEng wStore "t0" "k1" ["s"] =
        (wStore, .error (.duplicateSigner "k1")) ∧
      (submitSignature wEng wStore "t0" "k1" ["s"]).1.txs.lookup "t0" =
        some wTx) :=
  ⟨by decide, by decide, by decide, by decide, by decide,
    submitSignature_duplicate_signer wEng wStore "t0" "k1" ["s"] [] wTx
      (by decide) (by decide) (by decide) (by decide) (by decide)⟩

/-- C4: `broadcastTransaction` on a stored transaction whose status is not
`allsigned` fails with the invalid-state-transition error, and
`cancelTransaction` on one whose status is not `pending` fails likewise;
in both cases the store is returned unchanged. -/
theorem broadcast_cancel_state_guards (env : Env) (st : Store) (id : String)
    (tx : Transaction) (htx : st.txs.lookup id = some tx) :
    (tx.status ≠ TransactionStatus.allsigned →
      broadcastTransaction env st id =
        (st, .error (.invalidStateTransition tx.status))) ∧
    (tx.status ≠ TransactionStatus.pending →
      cancelTransaction st id =
        (st, .error (.invalidStateTransition tx.status))) := by
  constructor
  · intro h
    unfold broadcastTransaction
    rw [htx]
    dsimp only
    rw [if_pos h]
  · intro h
    unfold cancelTransaction
    rw [htx]
    try dsimp only
    rw [if_pos h]

/-- C4 witness: on the concrete `broadcasted` transaction, both broadcast
(not `allsigned`) and cancel (not `pending`) fail with the
invalid-state-transition error and leave the store unchanged. -/
theorem broadcast_cancel_state_guards_witness :
    wStoreB.txs.lookup "t0" = some wTxB ∧
    ((wTxB.status ≠ TransactionStatus.allsigned →
      broadcastTransaction wEnv wStoreB "t0" =
        (wStoreB, .error (.invalidStateTransition wTxB.status))) ∧
    (wTxB.status ≠ TransactionStatus.pending →
      cancelTransaction wStoreB "t0" =
        (wStoreB, .error (.invalidStateTransition wTxB.status)))) :=
  ⟨by decide, broadcast_cancel_state_guards wEnv wStoreB "t0" wTxB (by decide)⟩

/-- C7: `createMultisigWallet` rejects `m > n`, `m <= 0`, a participant
count different from `n`, and duplicated participant public keys, each
with the error kind of the first violated check, and performs no Store
write at all (the returned store — wallet records and ID counter — is the
input store). -/
theorem createMultisigWallet_validation (eng : ScriptEngine) (now : String)
    (st : Store) (m n : Int) (name : Option String)
    (ps : List Participant)
    (hbad : m > n ∨ m ≤ 0 ∨ (ps.length : Int) ≠ n ∨
      ¬(ps.map Participant.publicKey).Nodup) :
    (createMultisigWallet eng now st m n name ps).1 = st ∧
    ∃ e, (createMultisigWallet eng now st m n name ps).2 = .error e ∧
      ((m > n ∨ m ≤ 0 ∨ n ≤ 0) → e = .invalidThreshold) ∧
      (¬(m > n ∨ m ≤ 0 ∨ n ≤ 0) → (ps.length : Int) ≠ n →
        e = .participantCountMismatch) ∧
      (¬(m > n ∨ m ≤ 0 ∨ n ≤ 0) → (ps.length : Int) = n →
        e = .duplicateParticipant) := by
  by_cases hth : m > n ∨ m ≤ 0 ∨ n ≤ 0
  · refine ⟨?_, .invalidThreshold, ?_, fun _ => rfl,
      fun h _ => absurd hth h, fun h _ => absurd hth h⟩
    · unfold createMultisigWallet
      rw [if_pos hth]
    · unfold createMultisigWallet
      rw [if_pos hth]
  · by_cases hcnt : (ps.length : Int) ≠ n
    · have hgoal : createMultisigWallet eng now st m n name ps =
          (st, .error .participantCountMismatch) := by
        unfold createMultisigWallet
        rw [if_neg hth]
        dsimp only
        rw [if_pos hcnt]
      exact ⟨by rw [hgoal], .participantCountMismatch, by rw [hgoal],
        fun h => absurd h hth, fun _ _ => rfl,
        fun _ hc => absurd hc hcnt⟩
    · push_neg at hcnt
      have hnd : ¬(ps.map Participant.publicKey).Nodup := by
        rcases hbad with h | h | h | h
        · exact absurd (Or.inl h) hth
        · exact absurd (Or.inr (Or.inl h)) hth
        · exact absurd hcnt h
        · exact h
      have hdlen : ((ps.map Participant.publicKey).dedup.length : Int) ≠ n := by
        intro hlen
        apply hnd
        have hsub := List.dedup_sublist (ps.map Participant.publicKey)
        have hle : (ps.map Participant.publicKey).dedup.length =
            (ps.map Participant.publicKey).length := by
          have : ((ps.map Participant.publicKey).length : Int) = n := by
            rw [List.length_map]; exact hcnt
          omega
        have heq := hsub.eq_of_length hle
        rw [← heq]
        exact (ps.map Participant.publicKey).nodup_dedup
      have hgoal : createMultisigWallet eng now st m n name ps =
          (st, .error .duplicateParticipant) := by
        unfold createMultisigWallet
        rw [if_neg hth]
        dsimp only
        rw [if_neg (by omega : ¬(ps.length : Int) ≠ n)]
        try dsimp only
        rw [if_pos hdlen]
      exact ⟨by rw [hgoal], .duplicateParticipant, by rw [hgoal],
        fun h => absurd h hth, fun _ hc => absurd hcnt hc,
        fun _ _ => rfl⟩

/-- C7 witness: a 3-of-2 request (m > n) is rejected with the
invalid-threshold error and writes nothing. -/
theorem createMultisigWallet_validation_witness :
    ((3 : Int) > 2 ∨ (3 : Int) ≤ 0 ∨
      (([⟨"k1", ""⟩, ⟨"k2", ""⟩] : List Participant).length : Int) ≠ 2 ∨
      ¬(([⟨"k1", ""⟩, ⟨"k2", ""⟩] : List Participant).map
          Participant.publicKey).Nodup) ∧
    ((createMultisigWallet wEng "t0" wStore 3 2 none
        [⟨"k1", ""⟩, ⟨"k2", ""⟩]).1 = wStore ∧
      ∃ e, (createMultisigWallet wEng "t0" wStore 3 2 none
          [⟨"k1", ""⟩, ⟨"k2", ""⟩]).2 = .error e ∧
        (((3 : Int) > 2 ∨ (3 : Int) ≤ 0 ∨ (2 : Int) ≤ 0) →
          e = .invalidThreshold) ∧
        (¬((3 : Int) > 2 ∨ (3 : Int) ≤ 0 ∨ (2 : Int) ≤ 0) →
          ((([⟨"k1", ""⟩, ⟨"k2", ""⟩] : List Participant).length : Int) ≠ 2) →
          e = .participantCountMismatch) ∧
        (¬((3 : Int) > 2 ∨ (3 : Int) ≤ 0 ∨ (2 : Int) ≤ 0) →
          ((([⟨"k1", ""⟩, ⟨"k2", ""⟩] : List Participant).length : Int) = 2) →
          e = .duplicateParticipant)) :=
  ⟨by left; decide,
    createMultisigWallet_validation wEng "t0" wStore 3 2 none
      [⟨"k1", ""⟩, ⟨"k2", ""⟩] (by left; decide)⟩

/-- C1: a successful `submitSignature` on a pending transaction whose
distinct-signer count thereby reaches `requiredSignatures` sets the status
to `allsigned` and stores a non-empty `signedTransaction`; every later
`submitSignature` on the same transaction is rejected without a store
write, and — whenever the key passes the non-emptiness validation —
precisely because the status is no longer `pending`.  Hence
`signedTransaction` is produced on exactly one call. -/
theorem submitSignature_threshold_allsigned (eng : ScriptEngine)
    (st : Store) (id pk : String) (sigs : List String) (tx : Transaction)
    (a' : eng.Artifact)
    (hpk : pk ≠ "") (htx : st.txs.lookup id = some tx)
    (hpend : tx.status = TransactionStatus.pending)
    (hw : (st.wallets.lookup tx.walletId).isSome)
    (hdup : tx.signatures.lookup pk = none)
    (happly : applyAll eng pk (eng.fromBuffer tx.psbt) 0 sigs = some a')
    (hth : (tx.signatures.length + 1 : Int) = tx.requiredSignatures) :
    ∃ st' r, submitSignature eng st id pk sigs = (st', Except.ok r) ∧
      r.status = TransactionStatus.allsigned ∧
      ∃ tx', st'.txs.lookup id = some tx' ∧
        tx'.status = TransactionStatus.allsigned ∧
        (∃ s, tx'.signedTransaction = some s ∧ s ≠ "") ∧
        (∀ pk2 sigs2, ∃ e,
          submitSignature eng st' id pk2 sigs2 = (st', .error e)) ∧
        (∀ pk2 sigs2, pk2 ≠ "" →
          submitSignature eng st' id pk2 sigs2 =
            (st', .error (.invalidStateTransition
              TransactionStatus.allsigned))) := by
  have hput := putAssoc_of_lookup_none tx.signatures pk sigs hdup
  have hlen : (putAssoc tx.signatures pk sigs).length =
      tx.signatures.length + 1 := by rw [hput]; simp
  have hreached : ((putAssoc tx.signatures pk sigs).length : Int) ≥
      tx.requiredSignatures := by rw [hlen]; omega
  have heq := submitSignature_eq_of_success eng st id pk sigs tx a'
    hpk htx hpend hw hdup happly
  have hstat : (submittedTx eng tx pk sigs a').status =
      TransactionStatus.allsigned := by
    simp only [submittedTx]
    rw [if_pos hreached]
  have hsigned : (submittedTx eng tx pk sigs a').signedTransaction =
      some (eng.finalizeExtractHex a') := by
    simp only [submittedTx]
    rw [if_pos hreached]
  refine ⟨_, _, heq, hstat, submittedTx eng tx pk sigs a',
    lookup_putAssoc_self _ _ _, hstat,
    ⟨eng.finalizeExtractHex a', hsigned, eng.finalize_nonempty a'⟩, ?_, ?_⟩
  · intro pk2 sigs2
    exact submitSignature_rejected_of_not_pending eng
      { st with txs := putAssoc st.txs id (submittedTx eng tx pk sigs a') }
      id pk2 sigs2 (submittedTx eng tx pk sigs a')
      (lookup_putAssoc_self _ _ _) (by rw [hstat]; decide)
  · intro pk2 sigs2 hpk2
    have := submitSignature_not_pending eng
      { st with txs := putAssoc st.txs id (submittedTx eng tx pk sigs a') }
      id pk2 sigs2 (submittedTx eng tx pk sigs a')
      hpk2 (lookup_putAssoc_self _ _ _) (by rw [hstat]; decide)
    rwa [hstat] at this

/-- C1 witness: on the concrete pending 2-of-3 transaction with one
signature collected, the submission from `k2` reaches the threshold,
yields `allsigned` with a non-empty signed transaction, and every later
submission is rejected. -/
theorem submitSignature_threshold_allsigned_witness :
    ("k2" : String) ≠ "" ∧
    wStore.txs.lookup "t0" = some wTx ∧
    wTx.status = TransactionStatus.pending ∧
    (wStore.wallets.lookup wTx.walletId).isSome ∧
    wTx.signatures.lookup "k2" = none ∧
    applyAll wEng "k2" (wEng.fromBuffer wTx.psbt) 0 [] = some () ∧
    (wTx.signatures.length + 1 : Int) = wTx.requiredSignatures ∧
    (∃ st' r, submitSignature wEng wStore "t0" "k2" [] = (st', Except.ok r) ∧
      r.status = TransactionStatus.allsigned ∧
      ∃ tx', st'.txs.lookup "t0" = some tx' ∧
        tx'.status = TransactionStatus.allsigned ∧
        (∃ s, tx'.signedTransaction = some s ∧ s ≠ "") ∧
        (∀ pk2 sigs2, ∃ e,
          submitSignature wEng st' "t0" pk2 sigs2 = (st', .error e)) ∧
        (∀ pk2 sigs2, pk2 ≠ "" →
          submitSignature wEng st' "t0" pk2 sigs2 =
            (st', .error (.invalidStateTransition
              TransactionStatus.allsigned)))) :=
  ⟨by decide, by decide, by decide, by decide, by decide, rfl, by decide,
    submitSignature_threshold_allsigned wEng wStore "t0" "k2" [] wTx ()
      (by decide) (by decide) (by decide) (by decide) (by decide) rfl
      (by decide)⟩

/-- C2: a successful `submitSignature` increases `signaturesReceived` by
exactly 1 and keeps it equal to the number of distinct signer keys in the
signatures map; moreover in every reachable store every persisted
transaction satisfies `signaturesReceived ≤ requiredSignatures`. -/
theorem submitSignature_count_invariant (eng : ScriptEngine) (st : Store)
    (id pk : String) (sigs : List String) (tx : Transaction)
    (a' : eng.Artifact)
    (hreach : Reach eng st)
    (hpk : pk ≠ "") (htx : st.txs.lookup id = some tx)
    (hpend : tx.status = TransactionStatus.pending)
    (hw : (st.wallets.lookup tx.walletId).isSome)
    (hdup : tx.signatures.lookup pk = none)
    (happly : applyAll eng pk (eng.fromBuffer tx.psbt) 0 sigs = some a') :
    (∃ st' r, submitSignature eng st id pk sigs = (st', Except.ok r) ∧
      r.signaturesReceived = tx.signaturesReceived + 1 ∧
      ∃ tx', st'.txs.lookup id = some tx' ∧
        tx'.signaturesReceived = tx.signaturesReceived + 1 ∧
        tx'.signaturesReceived =
          ((tx'.signatures.map Prod.fst).dedup).length ∧
        (tx'.signaturesReceived : Int) ≤ tx'.requiredSignatures) ∧
    (∀ st₂, Reach eng st₂ → ∀ k t, st₂.txs.lookup k = some t →
      (t.signaturesReceived : Int) ≤ t.requiredSignatures) := by
  have hinv : TxInv tx := (reach_storeInv eng st hreach).2 id tx htx
  obtain ⟨hcount, hnodup, hle, hlt⟩ := hinv
  have hput := putAssoc_of_lookup_none tx.signatures pk sigs hdup
  have hlen : (putAssoc tx.signatures pk sigs).length =
      tx.signatures.length + 1 := by rw [hput]; simp
  have heq := submitSignature_eq_of_success eng st id pk sigs tx a'
    hpk htx hpend hw hdup happly
  have hinv' : TxInv (submittedTx eng tx pk sigs a') :=
    txInv_submittedTx eng tx pk sigs a' ⟨hcount, hnodup, hle, hlt⟩ hpend hdup
  obtain ⟨hcount', hnodup', hle', _⟩ := hinv'
  have hrecv : (submittedTx eng tx pk sigs a').signaturesReceived =
      tx.signaturesReceived + 1 := by
    show (putAssoc tx.signatures pk sigs).length = tx.signaturesReceived + 1
    rw [hlen, hcount]
  refine ⟨⟨_, _, heq, hrecv, submittedTx eng tx pk sigs a',
      lookup_putAssoc_self _ _ _, hrecv, ?_, hle'⟩, ?_⟩
  · rw [hcount', List.Nodup.dedup hnodup']
    simp
  · intro st₂ hr k t ht
    exact ((reach_storeInv eng st₂ hr).2 k t ht).2.2.1

/-- A store reached from the empty store by creating a 1-of-1 wallet. -/
def rStore1 : Store :=
  (createMultisigWallet wEng "t0" emptyStore 1 1 none [⟨"k1", "u"⟩]).1

/-- The wallet id generated for `rStore1` (`wEng.hash` is the identity). -/
def rWid : String := "secux_btc_multisig" ++ "0000000000000001"

/-- `rStore1` after initiating a transaction on that wallet. -/
def rStore2 : Store :=
  (initiateTransaction wEng wEnv rStore1 rWid "dest" 1 none none).1

theorem rStore2_reach : Reach wEng rStore2 :=
  Reach.initiate wEnv rWid "dest" 1 none none
    (Reach.createWallet "t0" 1 1 none [⟨"k1", "u"⟩] Reach.init)

/-- The pending transaction persisted in `rStore2`. -/
def rTx : Transaction :=
  { transactionId := "70736274", walletId := rWid
    recipientAddress := "dest", amount := 1
    status := .pending, psbt := "70736274", inputCount := 1
    requiredSignatures := 1, signatures := [], signaturesReceived := 0
    initiatedTime := "t0" }

def rWallet : Wallet :=
  { walletId := rWid, address := "bc1qaddr", redeemScript := "rscript"
    m := 1, n := 1, name := "", creationTime := "t0"
    participants := [⟨"k1", "u"⟩] }

theorem rStore1_eq :
    rStore1 = { wallets := [(rWid, rWallet)], txs := [], idCounter := some 1 } := by
  decide

theorem rStore2_eq : rStore2 =
    { wallets := [(rWid, rWallet)], txs := [("70736274", rTx)],
      idCounter := some 1 } := by
  rw [rStore2, rStore1_eq]
  unfold initiateTransaction
  simp [estimateVirtualSize, wEng, wEnv, rWallet, List.lookup, putAssoc,
    outputsComposition, multisigKey, truthyNat, rTx, rWid]
  norm_num

/-- C2 witness: in the reachable store `rStore2`, a successful submission
from `k9` raises `signaturesReceived` from 0 to 1, equal to the distinct
key count, and the persisted bound holds. -/
theorem submitSignature_count_invariant_witness :
    Reach wEng rStore2 ∧
    ("k9" : String) ≠ "" ∧
    rStore2.txs.lookup "70736274" = some rTx ∧
    rTx.status = TransactionStatus.pending ∧
    (rStore2.wallets.lookup rTx.walletId).isSome ∧
    rTx.signatures.lookup "k9" = none ∧
    applyAll wEng "k9" (wEng.fromBuffer rTx.psbt) 0 [] = some () ∧
    ((∃ st' r, submitSignature wEng rStore2 "70736274" "k9" [] =
        (st', Except.ok r) ∧
      r.signaturesReceived = rTx.signaturesReceived + 1 ∧
      ∃ tx', st'.txs.lookup "70736274" = some tx' ∧
        tx'.signaturesReceived = rTx.signaturesReceived + 1 ∧
        tx'.signaturesReceived =
          ((tx'.signatures.map Prod.fst).dedup).length ∧
        (tx'.signaturesReceived : Int) ≤ tx'.requiredSignatures) ∧
    (∀ st₂, Reach wEng st₂ → ∀ k t, st₂.txs.lookup k = some t →
      (t.signaturesReceived : Int) ≤ t.requiredSignatures)) :=
  ⟨rStore2_reach, by decide, by rw [rStore2_eq]; decide, by decide,
    by rw [rStore2_eq]; decide, by decide, rfl,
    submitSignature_count_invariant wEng rStore2 "70736274" "k9" [] rTx ()
      rStore2_reach (by decide) (by rw [rStore2_eq]; decide) (by decide)
      (by rw [rStore2_eq]; decide) (by decide) rfl⟩

/-- C5: `initiateTransaction` never persists a transaction whose total
input amount is below `amount + estimatedFee`: when the inputs fall short
it fails with the insufficient-funds error and returns the store
unchanged, and any successful call had sufficient inputs. -/
theorem initiateTransaction_funds_guard (eng : ScriptEngine) (env : Env)
    (st : Store) (wid addr : String) (amt : ℚ) (fr : Option ℚ)
    (note : Option String) (w : Wallet) (vSize : ℚ)
    (hw : st.wallets.lookup wid = some w)
    (haddr : ¬addr = "") (hamt : ¬amt ≤ 0) (hfr : ¬fr.getD 1 ≤ 0)
    (hutxo : ¬env.utxos w.address = [])
    (hv : estimateVirtualSize eng env st wid addr = .ok vSize) :
    ((((env.utxos w.address).map Utxo.satoshis).sum <
        amt + ((⌈vSize * fr.getD 1⌉ : Int) : ℚ) →
      initiateTransaction eng env st wid addr amt fr note =
        (st, .error (.insufficientFunds
          (((env.utxos w.address).map Utxo.satoshis).sum)
          (amt + ((⌈vSize * fr.getD 1⌉ : Int) : ℚ))))) ∧
    (∀ st' t, initiateTransaction eng env st wid addr amt fr note =
        (st', .ok t) →
      amt + ((⌈vSize * fr.getD 1⌉ : Int) : ℚ) ≤
        ((env.utxos w.address).map Utxo.satoshis).sum)) := by
  constructor
  · intro hlt
    unfold initiateTransaction
    rw [if_neg haddr, if_neg hamt, if_neg hfr, hw]
    dsimp only
    rw [if_neg hutxo, hv]
    dsimp only
    rw [if_pos hlt]
  · intro st' t hok
    by_cases hlt : (((env.utxos w.address).map Utxo.satoshis).sum <
        amt + ((⌈vSize * fr.getD 1⌉ : Int) : ℚ))
    · have heq : initiateTransaction eng env st wid addr amt fr note =
          (st, .error (.insufficientFunds
            (((env.utxos w.address).map Utxo.satoshis).sum)
            (amt + ((⌈vSize * fr.getD 1⌉ : Int) : ℚ)))) := by
        unfold initiateTransaction
        rw [if_neg haddr, if_neg hamt, if_neg hfr, hw]
        dsimp only
        rw [if_neg hutxo, hv]
        dsimp only
        rw [if_pos hlt]
      rw [heq] at hok
      exact absurd hok.symm (by simp)
    · exact not_lt.mp hlt

/-- C5 witness: on the concrete wallet with a single 100000-satoshi utxo,
fee 100, amount 1, the hypotheses hold and the sufficiency bound of the
successful path is available. -/
theorem initiateTransaction_funds_guard_witness :
    wStore.wallets.lookup "w0" = some wWallet ∧
    ¬("dest" : String) = "" ∧ ¬(1 : ℚ) ≤ 0 ∧
    ¬((none : Option ℚ).getD 1) ≤ 0 ∧
    ¬wEnv.utxos wWallet.address = [] ∧
    estimateVirtualSize wEng wEnv wStore "w0" "dest" = .ok 100 ∧
    ((((wEnv.utxos wWallet.address).map Utxo.satoshis).sum <
        (1 : ℚ) + ((⌈(100 : ℚ) * (none : Option ℚ).getD 1⌉ : Int) : ℚ) →
      initiateTransaction wEng wEnv wStore "w0" "dest" 1 none none =
        (wStore, .error (.insufficientFunds
          (((wEnv.utxos wWallet.address).map Utxo.satoshis).sum)
          ((1 : ℚ) + ((⌈(100 : ℚ) * (none : Option ℚ).getD 1⌉ : Int) : ℚ))))) ∧
    (∀ st' t, initiateTransaction wEng wEnv wStore "w0" "dest" 1 none none =
        (st', .ok t) →
      (1 : ℚ) + ((⌈(100 : ℚ) * (none : Option ℚ).getD 1⌉ : Int) : ℚ) ≤
        (((wEnv.utxos wWallet.address).map Utxo.satoshis).sum))) :=
  ⟨by decide, by decide, by norm_num, by norm_num,
    by decide, rfl,
    initiateTransaction_funds_guard wEng wEnv wStore "w0" "dest" 1 none none
      wWallet 100 (by decide) (by decide) (by norm_num) (by norm_num)
      (by decide) rfl⟩

/-- C6 counterexample: the positive non-integer amount 3/2 passes
parameter validation — on the empty store the call proceeds to the wallet
lookup and fails with `WalletNotFound`, not with the invalid-parameter
error the claim requires for every non-integer amount. -/
theorem initiateTransaction_noninteger_amount_accepted :
    (¬∃ z : Int, ((3 : ℚ)/2) = (z : ℚ)) ∧ (0 : ℚ) < 3/2 ∧
    initiateTransaction wEng wEnv emptyStore "w0" "addr" (3/2) none none =
      (emptyStore, .error (.walletNotFound "w0")) := by
  refine ⟨?_, by norm_num, ?_⟩
  · rintro ⟨z, hz⟩
    have h2 : (3 : ℚ) = 2 * z := by
      field_simp at hz
      linarith
    have h3 : (3 : Int) = 2 * z := by exact_mod_cast h2
    omega
  · unfold initiateTransaction
    rw [if_neg (by decide : ¬(("addr" : String) = ""))]
    rw [if_neg (by norm_num : ¬((3 : ℚ)/2 ≤ 0))]
    rw [if_neg (by norm_num : ¬(((none : Option ℚ).getD 1) ≤ 0))]
    rfl

/-- C6 (amended): `initiateTransaction` validates up front that
`recipientAddress` is non-empty, `amount` is a positive number and the
(defaulted) `feeRate` is positive, failing with the invalid-parameter
error of the first violated check before any Store write; integrality of
`amount` is not checked. -/
theorem initiateTransaction_param_validation (eng : ScriptEngine)
    (env : Env) (st : Store) (wid addr : String) (amt : ℚ)
    (fr : Option ℚ) (note : Option String)
    (h : addr = "" ∨ amt ≤ 0 ∨ fr.getD 1 ≤ 0) :
    ∃ f, initiateTransaction eng env st wid addr amt fr note =
      (st, .error (.invalidParameter f)) ∧
      (addr = "" → f = "recipientAddress") ∧
      (¬addr = "" → amt ≤ 0 → f = "amount") ∧
      (¬addr = "" → ¬amt ≤ 0 → f = "feeRate") := by
  by_cases haddr : addr = ""
  · refine ⟨"recipientAddress", ?_, fun _ => rfl,
      fun hc _ => absurd haddr hc, fun hc _ => absurd haddr hc⟩
    unfold initiateTransaction
    rw [if_pos haddr]
  · by_cases hamt : amt ≤ 0
    · refine ⟨"amount", ?_, fun hc => absurd hc haddr,
        fun _ _ => rfl, fun _ hc => absurd hamt hc⟩
      unfold initiateTransaction
      rw [if_neg haddr, if_pos hamt]
    · have hfr : fr.getD 1 ≤ 0 := by
        rcases h with h | h | h
        · exact absurd h haddr
        · exact absurd h hamt
        · exact h
      refine ⟨"feeRate", ?_, fun hc => absurd hc haddr,
        fun _ hc => absurd hc hamt, fun _ _ => rfl⟩
      unfold initiateTransaction
      rw [if_neg haddr, if_neg hamt, if_pos hfr]

/-- C6 witness: a zero amount is rejected with the invalid-parameter
error on the `amount` field before any Store write. -/
theorem initiateTransaction_param_validation_witness :
    (("a" : String) = "" ∨ (0 : ℚ) ≤ 0 ∨ ((none : Option ℚ).getD 1) ≤ 0) ∧
    (∃ f, initiateTransaction wEng wEnv wStore "w0" "a" 0 none none =
      (wStore, .error (.invalidParameter f)) ∧
      (("a" : String) = "" → f = "recipientAddress") ∧
      (¬("a" : String) = "" → (0 : ℚ) ≤ 0 → f = "amount") ∧
      (¬("a" : String) = "" → ¬(0 : ℚ) ≤ 0 → f = "feeRate")) :=
  ⟨Or.inr (Or.inl (by norm_num)),
    initiateTransaction_param_validation wEng wEnv wStore "w0" "a" 0 none
      none (Or.inr (Or.inl (by norm_num)))⟩

/-- C8: `getTransactionStatus` never fails for a stored transaction; a
`broadcasted` transaction advances to `finished` — and is persisted — only
when the confirmation query succeeds with a positive count; when the query
fails (or the count is non-positive, or the transaction is not in the
broadcasted-with-hash case) the store is unchanged and the previously
persisted status is returned. -/
theorem getTransactionStatus_swallow (env : Env) (st : Store) (id : String)
    (tx : Transaction) (htx : st.txs.lookup id = some tx) :
    (∃ v, (getTransactionStatus env st id).2 = Except.ok v) ∧
    (¬(tx.status = TransactionStatus.broadcasted ∧
        truthyStr tx.txHash = true) →
      getTransactionStatus env st id = (st, .ok (statusView tx))) ∧
    (tx.status = TransactionStatus.broadcasted →
      truthyStr tx.txHash = true →
      env.txDetails (tx.txHash.getD "") = none →
      getTransactionStatus env st id = (st, .ok (statusView tx))) ∧
    (∀ c : Int, tx.status = TransactionStatus.broadcasted →
      truthyStr tx.txHash = true →
      env.txDetails (tx.txHash.getD "") = some c → c ≤ 0 →
      getTransactionStatus env st id = (st, .ok (statusView tx))) ∧
    (∀ c : Int, tx.status = TransactionStatus.broadcasted →
      truthyStr tx.txHash = true →
      env.txDetails (tx.txHash.getD "") = some c → 0 < c →
      getTransactionStatus env st id =
        ({ st with txs := putAssoc st.txs id { tx with status := .finished } },
          .ok (statusView { tx with status := .finished }))) := by
  have hbase : ∀ hc : ¬(tx.status = TransactionStatus.broadcasted ∧
      truthyStr tx.txHash = true),
      getTransactionStatus env st id = (st, .ok (statusView tx)) := by
    intro hc
    unfold getTransactionStatus
    rw [htx]
    dsimp only
    rw [if_neg hc]
  have hnone : ∀ (h1 : tx.status = TransactionStatus.broadcasted)
      (h2 : truthyStr tx.txHash = true),
      env.txDetails (tx.txHash.getD "") = none →
      getTransactionStatus env st id = (st, .ok (statusView tx)) := by
    intro h1 h2 hd
    unfold getTransactionStatus
    rw [htx]
    dsimp only
    rw [if_pos ⟨h1, h2⟩, hd]
  have hle : ∀ (c : Int) (h1 : tx.status = TransactionStatus.broadcasted)
      (h2 : truthyStr tx.txHash = true),
      env.txDetails (tx.txHash.getD "") = some c → c ≤ 0 →
      getTransactionStatus env st id = (st, .ok (statusView tx)) := by
    intro c h1 h2 hd hc
    unfold getTransactionStatus
    rw [htx]
    dsimp only
    rw [if_pos ⟨h1, h2⟩, hd]
    dsimp only
    rw [if_neg (not_lt.mpr hc)]
  have hpos : ∀ (c : Int) (h1 : tx.status = TransactionStatus.broadcasted)
      (h2 : truthyStr tx.txHash = true),
      env.txDetails (tx.txHash.getD "") = some c → 0 < c →
      getTransactionStatus env st id =
        ({ st with txs := putAssoc st.txs id { tx with status := .finished } },
          .ok (statusView { tx with status := .finished })) := by
    intro c h1 h2 hd hc
    unfold getTransactionStatus
    rw [htx]
    dsimp only
    rw [if_pos ⟨h1, h2⟩, hd]
    dsimp only
    rw [if_pos hc]
  refine ⟨?_, hbase, hnone, hle, hpos⟩
  by_cases hc : tx.status = TransactionStatus.broadcasted ∧
      truthyStr tx.txHash = true
  · cases hd : env.txDetails (tx.txHash.getD "") with
    | none => exact ⟨statusView tx, by rw [hnone hc.1 hc.2 hd]⟩
    | some c =>
      by_cases hcp : 0 < c
      · exact ⟨statusView { tx with status := .finished },
          by rw [hpos c hc.1 hc.2 hd hcp]⟩
      · exact ⟨statusView tx, by rw [hle c hc.1 hc.2 hd (not_lt.mp hcp)]⟩
  · exact ⟨statusView tx, by rw [hbase hc]⟩

/-- C8 witness: on the concrete broadcasted transaction with a failing
confirmation query, the call succeeds, swallows the failure and leaves the
store unchanged. -/
theorem getTransactionStatus_swallow_witness :
    wStoreB.txs.lookup "t0" = some wTxB ∧
    ((∃ v, (getTransactionStatus wEnv wStoreB "t0").2 = Except.ok v) ∧
    (¬(wTxB.status = TransactionStatus.broadcasted ∧
        truthyStr wTxB.txHash = true) →
      getTransactionStatus wEnv wStoreB "t0" = (wStoreB, .ok (statusView wTxB))) ∧
    (wTxB.status = TransactionStatus.broadcasted →
      truthyStr wTxB.txHash = true →
      wEnv.txDetails (wTxB.txHash.getD "") = none →
      getTransactionStatus wEnv wStoreB "t0" = (wStoreB, .ok (statusView wTxB))) ∧
    (∀ c : Int, wTxB.status = TransactionStatus.broadcasted →
      truthyStr wTxB.txHash = true →
      wEnv.txDetails (wTxB.txHash.getD "") = some c → c ≤ 0 →
      getTransactionStatus wEnv wStoreB "t0" = (wStoreB, .ok (statusView wTxB))) ∧
    (∀ c : Int, wTxB.status = TransactionStatus.broadcasted →
      truthyStr wTxB.txHash = true →
      wEnv.txDetails (wTxB.txHash.getD "") = some c → 0 < c →
      getTransactionStatus wEnv wStoreB "t0" =
        ({ wStoreB with
            txs := putAssoc wStoreB.txs "t0" { wTxB with status := .finished } },
          .ok (statusView { wTxB with status := .finished })))) :=
  ⟨by decide, getTransactionStatus_swallow wEnv wStoreB "t0" wTxB (by decide)⟩

/-- C9: for a recognised recipient script type, the output composition
handed to the byte-count calculation contains the `P2WSH` change output
with count exactly 2 when the recipient type is itself `P2WSH` and with
count exactly 1 (next to the recipient's own type with count 1)
otherwise; an unrecognised recipient script type makes the estimation
fail. -/
theorem estimateVirtualSize_change_output (eng : ScriptEngine) (env : Env)
    (st : Store) (wid addr : String) (w : Wallet) (t : ScriptType)
    (hw : st.wallets.lookup wid = some w) :
    (eng.getScriptType addr = some t →
      estimateVirtualSize eng env st wid addr =
        .ok (env.getByteCount
          [(multisigKey w.m w.n, (env.utxos w.address).length)]
          (outputsComposition (scriptTypeName t)))) ∧
    ((outputsComposition (scriptTypeName t)).lookup "P2WSH" =
      some (if t = ScriptType.P2WSH then 2 else 1)) ∧
    (t ≠ ScriptType.P2WSH →
      (outputsComposition (scriptTypeName t)).lookup (scriptTypeName t) =
        some 1) ∧
    (eng.getScriptType addr = none →
      estimateVirtualSize eng env st wid addr =
        .error .unsupportedScriptType) := by
  refine ⟨?_, ?_, ?_, ?_⟩
  · intro h
    unfold estimateVirtualSize
    rw [hw, h]
  · cases t <;> decide
  · intro h
    cases t <;> first | (exact absurd rfl h) | decide
  · intro h
    unfold estimateVirtualSize
    rw [hw, h]

/-- C9 witness: for the concrete wallet and a P2PKH recipient address, the
estimation passes the composition with one P2PKH output and one P2WSH
change output to the byte-count calculation. -/
theorem estimateVirtualSize_change_output_witness :
    wStore.wallets.lookup "w0" = some wWallet ∧
    ((wEng.getScriptType "p2pkh" = some ScriptType.P2PKH →
      estimateVirtualSize wEng wEnv wStore "w0" "p2pkh" =
        .ok (wEnv.getByteCount
          [(multisigKey wWallet.m wWallet.n,
            (wEnv.utxos wWallet.address).length)]
          (outputsComposition (scriptTypeName ScriptType.P2PKH)))) ∧
    ((outputsComposition (scriptTypeName ScriptType.P2PKH)).lookup "P2WSH" =
      some (if ScriptType.P2PKH = ScriptType.P2WSH then 2 else 1)) ∧
    (ScriptType.P2PKH ≠ ScriptType.P2WSH →
      (outputsComposition (scriptTypeName ScriptType.P2PKH)).lookup
          (scriptTypeName ScriptType.P2PKH) = some 1) ∧
    (wEng.getScriptType "p2pkh" = none →
      estimateVirtualSize wEng wEnv wStore "w0" "p2pkh" =
        .error .unsupportedScriptType)) :=
  ⟨by decide,
    estimateVirtualSize_change_output wEng wEnv wStore "w0" "p2pkh" wWallet
      ScriptType.P2PKH (by decide)⟩

/-- Submitting `[]`-signature batches from fresh, distinct, non-empty keys
whose count exactly completes the threshold drives a pending transaction
to `allsigned`. -/
theorem foldSubmit_empty_allsigned (eng : ScriptEngine) (pks : List String) :
    ∀ (st : Store) (id : String) (tx : Transaction),
      st.txs.lookup id = some tx →
      tx.status = TransactionStatus.pending →
      (st.wallets.lookup tx.walletId).isSome →
      (∀ p ∈ pks, p ≠ "" ∧ tx.signatures.lookup p = none) →
      pks.Nodup → pks ≠ [] →
      (tx.signatures.length + pks.length : Int) = tx.requiredSignatures →
      ∃ tx', (pks.foldl (fun s p => (submitSignature eng s id p []).1)
          st).txs.lookup id = some tx' ∧
        tx'.status = TransactionStatus.allsigned := by
  induction pks with
  | nil =>
    intro st id tx _ _ _ _ _ hne _
    exact absurd rfl hne
  | cons pk rest ih =>
    intro st id tx htx hpend hw hfresh hnodup _ hcount
    obtain ⟨hpk, hdup⟩ := hfresh pk (List.mem_cons_self pk rest)
    have heq := submitSignature_eq_of_success eng st id pk [] tx
      (eng.fromBuffer tx.psbt) hpk htx hpend hw hdup rfl
    have hput := putAssoc_of_lookup_none tx.signatures pk [] hdup
    have hlen : (putAssoc tx.signatures pk []).length =
        tx.signatures.length + 1 := by rw [hput]; simp
    have hfold : (pk :: rest).foldl
        (fun s p => (submitSignature eng s id p []).1) st =
        rest.foldl (fun s p => (submitSignature eng s id p []).1)
          { st with
            txs := putAssoc st.txs id (submittedTx eng tx pk [] (eng.fromBuffer tx.psbt)) } := by
      rw [List.foldl_cons]
      congr 1
      rw [heq]
    rw [hfold]
    have hlook1 : (putAssoc st.txs id
        (submittedTx eng tx pk [] (eng.fromBuffer tx.psbt))).lookup id =
        some (submittedTx eng tx pk [] (eng.fromBuffer tx.psbt)) :=
      lookup_putAssoc_self _ _ _
    have hclen : (tx.signatures.length + (rest.length + 1) : Int) =
        tx.requiredSignatures := by
      simpa using hcount
    by_cases hre : rest = []
    · subst hre
      simp only [List.length_nil] at hclen
      have hge : ((putAssoc tx.signatures pk []).length : Int) ≥
          tx.requiredSignatures := by
        rw [hlen]
        push_cast
        omega
      refine ⟨submittedTx eng tx pk [] (eng.fromBuffer tx.psbt),
        hlook1, ?_⟩
      show (submittedTx eng tx pk [] (eng.fromBuffer tx.psbt)).status = _
      simp only [submittedTx]
      rw [if_pos hge]
    · have hrlen : 1 ≤ rest.length := List.length_pos.mpr hre
      have hlt : ((putAssoc tx.signatures pk []).length : Int) <
          tx.requiredSignatures := by
        rw [hlen]
        push_cast
        omega
      have hstat1 : (submittedTx eng tx pk []
          (eng.fromBuffer tx.psbt)).status = TransactionStatus.pending := by
        simp only [submittedTx]
        rw [if_neg (not_le.mpr hlt)]
        exact hpend
      refine ih { st with
          txs := putAssoc st.txs id (submittedTx eng tx pk [] (eng.fromBuffer tx.psbt)) } id
        (submittedTx eng tx pk [] (eng.fromBuffer tx.psbt))
        hlook1 hstat1 hw ?_ (List.nodup_cons.mp hnodup).2 hre ?_
      · intro p hp
        obtain ⟨hp1, hp2⟩ := hfresh p (List.mem_cons_of_mem pk hp)
        refine ⟨hp1, ?_⟩
        show (putAssoc tx.signatures pk []).lookup p = none
        have hne : p ≠ pk := by
          intro hpe
          exact (List.nodup_cons.mp hnodup).1 (hpe ▸ hp)
        rw [lookup_putAssoc_ne _ _ _ _ hne]
        exact hp2
      · show ((putAssoc tx.signatures pk []).length + rest.length : Int) =
          tx.requiredSignatures
        rw [hlen]
        push_cast
        omega

/-- C10: `submitSignature` never consults `inputCount`: an empty
signatures list from a fresh non-empty key succeeds for every value of
`inputCount`, applies no signature to any input (the persisted psbt is the
plain re-serialization of the decoded artifact) and still increments
`signaturesReceived` by 1; consequently enough empty submissions from
distinct keys to reach the threshold drive the transaction to
`allsigned`. -/
theorem submitSignature_empty_batch (eng : ScriptEngine) (st : Store)
    (id pk : String) (tx : Transaction)
    (hpk : pk ≠ "") (htx : st.txs.lookup id = some tx)
    (hpend : tx.status = TransactionStatus.pending)
    (hw : (st.wallets.lookup tx.walletId).isSome)
    (hdup : tx.signatures.lookup pk = none) :
    (∃ st' r, submitSignature eng st id pk [] = (st', Except.ok r) ∧
      r.signaturesReceived = tx.signatures.length + 1 ∧
      ∃ tx', st'.txs.lookup id = some tx' ∧
        tx'.psbt = eng.toBuffer (eng.fromBuffer tx.psbt) ∧
        tx'.signaturesReceived = tx.signatures.length + 1) ∧
    (∀ c : Nat, ∃ st' r, submitSignature eng
        { st with txs := putAssoc st.txs id { tx with inputCount := c } }
        id pk [] = (st', Except.ok r) ∧
      r.signaturesReceived = tx.signatures.length + 1) ∧
    (∀ pks : List String,
      (∀ p ∈ pks, p ≠ "" ∧ tx.signatures.lookup p = none) →
      pks.Nodup → pks ≠ [] →
      (tx.signatures.length + pks.length : Int) = tx.requiredSignatures →
      ∃ tx', (pks.foldl (fun s p => (submitSignature eng s id p []).1)
          st).txs.lookup id = some tx' ∧
        tx'.status = TransactionStatus.allsigned) := by
  have hput := putAssoc_of_lookup_none tx.signatures pk [] hdup
  have hlen : (putAssoc tx.signatures pk []).length =
      tx.signatures.length + 1 := by rw [hput]; simp
  refine ⟨?_, ?_, fun pks h1 h2 h3 h4 =>
    foldSubmit_empty_allsigned eng pks st id tx htx hpend hw h1 h2 h3 h4⟩
  · have heq := submitSignature_eq_of_success eng st id pk [] tx
      (eng.fromBuffer tx.psbt) hpk htx hpend hw hdup rfl
    refine ⟨_, _, heq, hlen,
      submittedTx eng tx pk [] (eng.fromBuffer tx.psbt),
      lookup_putAssoc_self _ _ _, rfl, hlen⟩
  · intro c
    have heqc := submitSignature_eq_of_success eng
      { st with txs := putAssoc st.txs id { tx with inputCount := c } }
      id pk [] { tx with inputCount := c } (eng.fromBuffer tx.psbt)
      hpk (lookup_putAssoc_self _ _ _) hpend hw hdup rfl
    exact ⟨_, _, heqc, hlen⟩

/-- C10 witness: on the concrete pending transaction, an empty submission
from `k2` succeeds, applies nothing, increments the count, succeeds for
every `inputCount`, and one such submission completes the 2-of-3
threshold. -/
theorem submitSignature_empty_batch_witness :
    ("k2" : String) ≠ "" ∧
    wStore.txs.lookup "t0" = some wTx ∧
    wTx.status = TransactionStatus.pending ∧
    (wStore.wallets.lookup wTx.walletId).isSome ∧
    wTx.signatures.lookup "k2" = none ∧
    ((∃ st' r, submitSignature wEng wStore "t0" "k2" [] =
        (st', Except.ok r) ∧
      r.signaturesReceived = wTx.signatures.length + 1 ∧
      ∃ tx', st'.txs.lookup "t0" = some tx' ∧
        tx'.psbt = wEng.toBuffer (wEng.fromBuffer wTx.psbt) ∧
        tx'.signaturesReceived = wTx.signatures.length + 1) ∧
    (∀ c : Nat, ∃ st' r, submitSignature wEng
        { wStore with
          txs := putAssoc wStore.txs "t0" { wTx with inputCount := c } }
        "t0" "k2" [] = (st', Except.ok r) ∧
      r.signaturesReceived = wTx.signatures.length + 1) ∧
    (∀ pks : List String,
      (∀ p ∈ pks, p ≠ "" ∧ wTx.signatures.lookup p = none) →
      pks.Nodup → pks ≠ [] →
      (wTx.signatures.length + pks.length : Int) = wTx.requiredSignatures →
      ∃ tx', (pks.foldl (fun s p => (submitSignature wEng s "t0" p []).1)
          wStore).txs.lookup "t0" = some tx' ∧
        tx'.status = TransactionStatus.allsigned)) :=
  ⟨by decide, by decide, by decide, by decide, by decide,
    submitSignature_empty_batch wEng wStore "t0" "k2" wTx (by decide)
      (by decide) (by decide) (by decide) (by decide)⟩

end BtcMultisig
